import Mathlib

/-!
Shallow embedding of the PDP-Generator server (`src/server.js`), an Express +
Supabase application managing product-page mockups, immutable version
snapshots, and positional comments.

Modelling conventions:
* The three Supabase tables (`mockups`, `versions`, `comments`) become three
  Lean lists inside a `DB` record.  A supabase `.eq(...).single()` query
  succeeds exactly when exactly one row matches; this is `findSingle`.
  A supabase `.update(...).eq(...)` maps over every matching row and reports
  no error when zero rows match — this is why several handlers answer 200 on
  unknown ids.
* `crypto.createHash('sha256')` is an opaque one-way function: the handlers
  that hash are parametrised over `hashFn : String → String`.
* `crypto.randomBytes(4).toString('hex')` (generateId) is nondeterministic:
  freshly generated ids are passed to each operation as an argument.
* Database-generated timestamps (`created_at` / `updated_at`) are opaque
  environment values; they only feed display metadata (orderings and
  `createdAt` echo fields) that no verified property mentions, so they are
  omitted from the records.
* JavaScript truthiness on strings (`if (password)`, `if (authorToken)`,
  `if (!password)`) treats the empty string like an absent value; the model
  matches on `Option String` and compares against `""` exactly where the
  source tests truthiness.
-/

namespace PDP

/-- A row of the `mockups` table (see the insert at `server.js` lines 87-95):
`id`, opaque content blob `data`, nullable `password_hash`, `current_version`
(starts at 1) and the `views` counter. -/
structure Mockup where
  id : String
  data : String
  password_hash : Option String
  current_version : Nat
  views : Nat
deriving DecidableEq, Repr

/-- A row of the `comments` table (insert at `server.js` lines 391-406). -/
structure Comment where
  id : String
  mockup_id : String
  version_number : Nat
  x : Int
  y : Int
  width : Int
  height : Int
  image_index : Nat
  comment : String
  author : String
  author_token : String
  resolved : Bool
deriving DecidableEq, Repr

/-- A row of the `versions` table (insert at `server.js` lines 245-253):
an immutable snapshot of a past version's content and comments. -/
structure Version where
  id : String
  mockup_id : String
  version_number : Nat
  data : String
  comments_snapshot : List Comment
deriving DecidableEq, Repr

/-- The whole persistent state: the three Supabase tables. -/
structure DB where
  mockups : List Mockup
  versions : List Version
  comments : List Comment
deriving DecidableEq, Repr

/-- Supabase `.eq(...).single()`: succeeds exactly when precisely one row
matches the predicate. -/
def findSingle {α : Type} (p : α → Bool) (l : List α) : Option α :=
  match l.filter p with
  | [a] => some a
  | _ => none

/-- The `?version=` query parameter of a read, already URL-decoded: either
the literal string `"current"` or a numeric version string. -/
inductive VersionReq where
  | current
  | num (n : Nat)
deriving DecidableEq, Repr

/-- The successful payload of `GET /api/mockups/:id` (the fields of the
`res.json` at `server.js` lines 168-175 and 179-186 that carry state; the
response also echoes a version-metadata list assembled before the version
branch, identical on every success path, which no claim mentions). -/
structure ReadOk where
  data : String
  views : Nat
  currentVersion : Nat
  viewingVersion : Nat
deriving DecidableEq, Repr

/-- Outcome of `GET /api/mockups/:id`.  `passwordRequired` is the
`{success:false, passwordProtected:true}` body and `invalidPassword` the 401;
neither constructor carries content, mirroring that those responses reveal no
mockup data. -/
inductive ReadResult where
  | notFound
  | passwordRequired
  | invalidPassword
  | ok (r : ReadOk)
deriving DecidableEq, Repr

/-- The live-content payload: `data`, `views` (the value already bumped by
one, as the handler reports `mockup.views + 1`), both version fields equal to
`current_version`. -/
def liveRead (m : Mockup) : ReadOk :=
  { data := m.data, views := m.views + 1,
    currentVersion := m.current_version, viewingVersion := m.current_version }

/-- The view-counter update at `server.js` lines 131-135: set `views` to the
fetched row's counter plus one, on every row matching the id. -/
def bumpViews (db : DB) (id : String) (m : Mockup) : DB :=
  { db with mockups := db.mockups.map fun mm =>
      if mm.id == id then { mm with views := m.views + 1 } else mm }

/-- The version-resolution branch at `server.js` lines 158-186: an explicit
numeric request different from `current_version` is looked up in the
`versions` table; a hit serves the archived data with `viewingVersion` the
requested number, while a miss — and every other request shape — serves the
live mockup. -/
def resolveVersionReq (db : DB) (id : String) (m : Mockup) :
    Option VersionReq → ReadOk
  | some (VersionReq.num n) =>
    if n != m.current_version then
      match findSingle
          (fun v => v.mockup_id == id && v.version_number == n) db.versions with
      | some vrow =>
        { data := vrow.data, views := m.views + 1,
          currentVersion := m.current_version, viewingVersion := n }
      | none => liveRead m
    else liveRead m
  | _ => liveRead m

/-- `GET /api/mockups/:id` (`server.js` lines 107-191).  Looks up the mockup;
404 on a miss.  If a password hash is stored: an absent (or empty, JS-falsy)
`?password=` yields `passwordRequired`, a hash mismatch yields
`invalidPassword`, both without touching state.  Otherwise the handler bumps
the view counter and resolves which version's content to serve.  (The source
bumps views before the version lookup; the two touch disjoint tables, so the
composed state below is the same.) -/
def getMockup (hashFn : String → String) (db : DB) (id : String)
    (password : Option String) (version : Option VersionReq) :
    ReadResult × DB :=
  match findSingle (fun mm => mm.id == id) db.mockups with
  | none => (ReadResult.notFound, db)
  | some m =>
    match m.password_hash with
    | some ph =>
      match password with
      | none => (ReadResult.passwordRequired, db)
      | some p =>
        if p == "" then (ReadResult.passwordRequired, db)
        else if hashFn p != ph then (ReadResult.invalidPassword, db)
        else (ReadResult.ok (resolveVersionReq db id m version), bumpViews db id m)
    | none => (ReadResult.ok (resolveVersionReq db id m version), bumpViews db id m)

/-- `POST /api/mockups` (`server.js` lines 81-104): insert a fresh mockup with
`current_version = 1`, `views = 0`, and `password_hash` set only for a truthy
password (`password ? hashPassword(password) : null`). -/
def createMockup (hashFn : String → String) (db : DB) (id : String)
    (data : String) (password : Option String) : DB :=
  let ph : Option String :=
    match password with
    | some p => if p == "" then none else some (hashFn p)
    | none => none
  { db with mockups := db.mockups ++
      [{ id := id, data := data, password_hash := ph,
         current_version := 1, views := 0 }] }

/-- `PUT /api/mockups/:id` (`server.js` lines 194-216): build `updateData`
with the new content, add a fresh hash only when the body password is truthy,
and update every row matching the id.  The handler answers 200 regardless of
whether a row matched; it never changes `current_version` or `views`. -/
def updateMockup (hashFn : String → String) (db : DB) (id : String)
    (data : String) (password : Option String) : DB :=
  { db with mockups := db.mockups.map fun m =>
      if m.id == id then
        match password with
        | some p =>
          if p == "" then { m with data := data }
          else { m with data := data, password_hash := some (hashFn p) }
        | none => { m with data := data }
      else m }

/-- Outcome of the version-cut endpoint. -/
inductive CutResult where
  | notFound
  | ok (previousVersion newVersion : Nat)
deriving DecidableEq, Repr

/-- `POST /api/mockups/:id/versions` (`server.js` lines 219-276): 404 if the
mockup is missing; otherwise read `currentVersion = current_version || 1`,
collect the live comments bound to it, insert one snapshot row carrying the
current content and that comment list, and set `current_version` to
`currentVersion + 1`.  The live content and the `comments` table are left
untouched. -/
def cutVersion (db : DB) (id : String) (versionId : String) :
    CutResult × DB :=
  match findSingle (fun mm => mm.id == id) db.mockups with
  | none => (CutResult.notFound, db)
  | some m =>
    let currentVersion := if m.current_version == 0 then 1 else m.current_version
    let snapComments := db.comments.filter
      (fun c => c.mockup_id == id && c.version_number == currentVersion)
    let snap : Version :=
      { id := versionId, mockup_id := id, version_number := currentVersion,
        data := m.data, comments_snapshot := snapComments }
    (CutResult.ok currentVersion (currentVersion + 1),
     { db with
        versions := db.versions ++ [snap],
        mockups := db.mockups.map fun mm =>
          if mm.id == id then { mm with current_version := currentVersion + 1 }
          else mm })

/-- Iterate `cutVersion` once per fresh snapshot id in the list. -/
def cutN (db : DB) (id : String) : List String → DB
  | [] => db
  | vid :: rest => cutN (cutVersion db id vid).2 id rest

/-- Status outcome shared by the comment and version-deletion handlers:
`ok` is a 200 success body, `forbidden` a 403, `notFound` a 404, `rejected`
the 400 `Cannot delete current version` body. -/
inductive ApiResult where
  | ok
  | forbidden
  | notFound
  | rejected
deriving DecidableEq, Repr

/-- Payload of `GET /api/mockups/:id/comments`: the comment list (archived
snapshots are echoed field-for-field by the handler's row mapping), the
version it answers for, and the `isArchived` flag. -/
structure CommentsOk where
  comments : List Comment
  version : Nat
  isArchived : Bool
deriving DecidableEq, Repr

/-- `GET /api/mockups/:id/comments` (`server.js` lines 300-374).  With an
explicit numeric `?version=` the handler first tries the `versions` table and
serves the frozen `comments_snapshot` (`isArchived = true`) when the snapshot
row exists; otherwise — and always when no version is requested — it serves
the live `comments` rows for the queried version, which defaults to the
mockup's `current_version || 1`.  (The source additionally orders the live
rows by their database timestamp, which the model leaves as insertion
order.) -/
def getComments (db : DB) (id : String) (version : Option Nat) : CommentsOk :=
  let versionToQuery : Nat :=
    match version with
    | some n => n
    | none =>
      match findSingle (fun mm => mm.id == id) db.mockups with
      | some m => if m.current_version == 0 then 1 else m.current_version
      | none => 1
  let live : CommentsOk :=
    { comments := db.comments.filter
        (fun c => c.mockup_id == id && c.version_number == versionToQuery),
      version := versionToQuery, isArchived := false }
  match version with
  | some n =>
    match findSingle
        (fun v => v.mockup_id == id && v.version_number == n) db.versions with
    | some vrow =>
      { comments := vrow.comments_snapshot, version := n, isArchived := true }
    | none => live
  | none => live

/-- `POST /api/mockups/:id/comments` (`server.js` lines 376-415): the new
comment is bound to the mockup's `current_version || 1` at call time (1 when
the mockup row is missing) and `resolved` starts false. -/
def addComment (db : DB) (id commentId : String) (x y width height : Int)
    (imageIndex : Nat) (body author authorToken : String) : String × DB :=
  let versionNumber : Nat :=
    match findSingle (fun mm => mm.id == id) db.mockups with
    | some m => if m.current_version == 0 then 1 else m.current_version
    | none => 1
  (commentId,
   { db with comments := db.comments ++
      [{ id := commentId, mockup_id := id, version_number := versionNumber,
         x := x, y := y, width := width, height := height,
         image_index := imageIndex, comment := body, author := author,
         author_token := authorToken, resolved := false }] })

/-- `PUT /api/mockups/:id/comments/:commentId` (`server.js` lines 417-445):
403 when the single matching row exists and its stored `author_token`
differs from the supplied one; in every other case — including an unknown
comment id, where the `.single()` lookup yields nothing and the update
matches zero rows — the handler updates the `comment` column of matching
rows and answers 200. -/
def editComment (db : DB) (commentId : String) (body : String)
    (authorToken : String) : ApiResult × DB :=
  let updated : DB :=
    { db with comments := db.comments.map fun c =>
        if c.id == commentId then { c with comment := body } else c }
  match findSingle (fun c => c.id == commentId) db.comments with
  | some existing =>
    if existing.author_token != authorToken then (ApiResult.forbidden, db)
    else (ApiResult.ok, updated)
  | none => (ApiResult.ok, updated)

/-- `DELETE /api/mockups/:id/comments/:commentId` (`server.js` lines
466-496): the token check only runs when `?authorToken=` is truthy (present
and non-empty) and the comment row exists; a mismatch is 403, every other
path deletes the matching rows and answers 200 — in particular an absent
token (the designer path, authorized outside this handler) or an unknown
comment id. -/
def deleteComment (db : DB) (commentId : String)
    (authorToken : Option String) : ApiResult × DB :=
  let deleted : DB :=
    { db with comments := db.comments.filter fun c => !(c.id == commentId) }
  match authorToken with
  | some t =>
    if t == "" then (ApiResult.ok, deleted)
    else
      match findSingle (fun c => c.id == commentId) db.comments with
      | some existing =>
        if existing.author_token != t then (ApiResult.forbidden, db)
        else (ApiResult.ok, deleted)
      | none => (ApiResult.ok, deleted)
  | none => (ApiResult.ok, deleted)

/-- `PUT /api/mockups/:id/comments/:commentId/resolve` (`server.js` lines
498-515): set the `resolved` column of matching rows; no authorization is
checked here and the handler always answers 200. -/
def resolveComment (db : DB) (commentId : String) (resolved : Bool) :
    ApiResult × DB :=
  (ApiResult.ok,
   { db with comments := db.comments.map fun c =>
      if c.id == commentId then { c with resolved := resolved } else c })

/-- `DELETE /api/mockups/:id/comments` (`server.js` lines 448-464): the
designer's bulk clear of every comment of the mockup. -/
def deleteAllComments (db : DB) (id : String) : ApiResult × DB :=
  (ApiResult.ok,
   { db with comments := db.comments.filter fun c => !(c.mockup_id == id) })

/-- `GET /api/mockups/:id/versions` (`server.js` lines 519-542): the id and
version number of every snapshot of the mockup (the source also echoes the
row timestamp and orders by version number descending). -/
def listVersions (db : DB) (id : String) : List (String × Nat) :=
  (db.versions.filter fun v => v.mockup_id == id).map
    (fun v => (v.id, v.version_number))

/-- `DELETE /api/mockups/:id/versions/:versionNum` (`server.js` lines
575-603): when the mockup row exists and the requested number is at least
`current_version`, answer the 400 `Cannot delete current version` rejection;
otherwise delete the matching snapshot rows and answer 200 (also when the
mockup or the snapshot does not exist). -/
def deleteVersion (db : DB) (id : String) (versionNum : Nat) :
    ApiResult × DB :=
  let deleted : DB :=
    { db with versions := db.versions.filter fun v =>
        !(v.mockup_id == id && v.version_number == versionNum) }
  match findSingle (fun mm => mm.id == id) db.mockups with
  | some m =>
    if versionNum ≥ m.current_version then (ApiResult.rejected, db)
    else (ApiResult.ok, deleted)
  | none => (ApiResult.ok, deleted)

/-! ### Supporting lemmas about `findSingle` and row updates -/

theorem filter_map_pres {α : Type} (p : α → Bool) (f : α → α)
    (hf : ∀ a, p (f a) = p a) (l : List α) :
    (l.map f).filter p = (l.filter p).map f := by
  induction l with
  | nil => rfl
  | cons a l ih =>
    simp only [List.map_cons, List.filter_cons, hf]
    cases hp : p a <;> simp [hp, ih]

theorem findSingle_map_pres {α : Type} (p : α → Bool) (f : α → α)
    (hf : ∀ a, p (f a) = p a) (l : List α) :
    findSingle p (l.map f) = Option.map f (findSingle p l) := by
  unfold findSingle
  rw [filter_map_pres p f hf]
  rcases l.filter p with _ | ⟨a, _ | ⟨b, t⟩⟩ <;> rfl

theorem findSingle_filter {α : Type} (p : α → Bool) (l : List α) (a : α)
    (h : findSingle p l = some a) : l.filter p = [a] := by
  rcases hl : l.filter p with _ | ⟨b, _ | ⟨c, t⟩⟩ <;>
    simp [findSingle, hl] at h
  simp [h]

theorem findSingle_pred {α : Type} (p : α → Bool) (l : List α) (a : α)
    (h : findSingle p l = some a) : p a = true := by
  have hf := findSingle_filter p l a h
  have ha : a ∈ l.filter p := by
    rw [hf]; exact List.mem_cons_self a []
  exact (List.mem_filter.mp ha).2

theorem findSingle_of_filter {α : Type} (p : α → Bool) (l : List α) (a : α)
    (h : l.filter p = [a]) : findSingle p l = some a := by
  simp [findSingle, h]

theorem findSingle_none_of_no_match {α : Type} (p : α → Bool)
    (l : List α) (h : ∀ a ∈ l, p a = false) : findSingle p l = none := by
  have : l.filter p = [] := by
    induction l with
    | nil => rfl
    | cons a t ih =>
      simp [List.filter_cons, h a (List.mem_cons_self a t),
        ih fun b hb => h b (List.mem_cons_of_mem a hb)]
  simp [findSingle, this]

theorem findSingle_append_fresh {α : Type} (p : α → Bool) (l : List α)
    (x : α) (hl : ∀ a ∈ l, p a = false) (hx : p x = true) :
    findSingle p (l ++ [x]) = some x := by
  have hnil : l.filter p = [] := by
    induction l with
    | nil => rfl
    | cons a t ih =>
      simp [List.filter_cons, hl a (List.mem_cons_self a t),
        ih fun b hb => hl b (List.mem_cons_of_mem a hb)]
  simp [findSingle, List.filter_append, hnil, hx]

theorem map_if_eq_self {α : Type} (q : α → Bool) (g : α → α) :
    ∀ l : List α, (∀ a ∈ l, q a = false) →
      (l.map fun a => if q a then g a else a) = l
  | [], _ => rfl
  | a :: t, h => by
    simp [h a (List.mem_cons_self a t),
      map_if_eq_self q g t fun b hb => h b (List.mem_cons_of_mem a hb)]

theorem filter_not_eq_self {α : Type} (q : α → Bool) :
    ∀ l : List α, (∀ a ∈ l, q a = false) →
      (l.filter fun a => !(q a)) = l
  | [], _ => rfl
  | a :: t, h => by
    simp [List.filter_cons, h a (List.mem_cons_self a t),
      filter_not_eq_self q t fun b hb => h b (List.mem_cons_of_mem a hb)]

theorem mockup_upd_id_pres (id : String) (g : Mockup → Mockup)
    (hg : ∀ mm, (g mm).id = mm.id) (mm : Mockup) :
    ((if mm.id == id then g mm else mm).id == id) = (mm.id == id) := by
  cases h : (mm.id == id) <;> simp [h, hg]

theorem bumpViews_findSingle (db : DB) (id : String) (m : Mockup)
    (hm : findSingle (fun mm => mm.id == id) db.mockups = some m) :
    findSingle (fun mm => mm.id == id) (bumpViews db id m).mockups
      = some { m with views := m.views + 1 } := by
  have hf : ∀ mm : Mockup,
      ((if mm.id == id then { mm with views := m.views + 1 } else mm).id == id)
        = (mm.id == id) :=
    mockup_upd_id_pres id _ fun mm => rfl
  show findSingle (fun mm => mm.id == id)
      (db.mockups.map fun mm =>
        if mm.id == id then { mm with views := m.views + 1 } else mm) = _
  rw [findSingle_map_pres _ _ hf, hm]
  have hp : m.id = id := by simpa using findSingle_pred _ _ _ hm
  simp [hp]

theorem resolveVersionReq_views (db : DB) (id : String) (m : Mockup)
    (version : Option VersionReq) :
    (resolveVersionReq db id m version).views = m.views + 1 := by
  rcases version with _ | v
  · rfl
  rcases v with _ | n
  · rfl
  · unfold resolveVersionReq
    rcases h : (n != m.current_version) with _ | _
    · simp [h, liveRead]
    · simp only [h, if_true]
      rcases hfs : findSingle
          (fun v => v.mockup_id == id && v.version_number == n) db.versions with
        _ | vrow <;> simp [hfs, liveRead]

theorem resolveVersionReq_miss (db : DB) (id : String) (m : Mockup) (n : Nat)
    (hn : n ≠ m.current_version)
    (harch : findSingle
        (fun v => v.mockup_id == id && v.version_number == n) db.versions
        = none) :
    resolveVersionReq db id m (some (VersionReq.num n)) = liveRead m := by
  unfold resolveVersionReq
  simp [harch, hn]

/-! ### Characterizations of the read handler's branches -/

theorem getMockup_notFound (hashFn : String → String) (db : DB)
    (id : String) (password : Option String) (version : Option VersionReq)
    (hm : findSingle (fun mm => mm.id == id) db.mockups = none) :
    getMockup hashFn db id password version = (ReadResult.notFound, db) := by
  simp only [getMockup, hm]

theorem getMockup_no_hash (hashFn : String → String) (db : DB)
    (id : String) (password : Option String) (version : Option VersionReq)
    (m : Mockup)
    (hm : findSingle (fun mm => mm.id == id) db.mockups = some m)
    (hph : m.password_hash = none) :
    getMockup hashFn db id password version
      = (ReadResult.ok (resolveVersionReq db id m version),
         bumpViews db id m) := by
  simp only [getMockup, hm, hph]

theorem getMockup_none_pw (hashFn : String → String) (db : DB)
    (id : String) (version : Option VersionReq) (m : Mockup) (ph : String)
    (hm : findSingle (fun mm => mm.id == id) db.mockups = some m)
    (hph : m.password_hash = some ph) :
    getMockup hashFn db id none version
      = (ReadResult.passwordRequired, db) := by
  simp only [getMockup, hm, hph]

theorem getMockup_empty_pw (hashFn : String → String) (db : DB)
    (id : String) (version : Option VersionReq) (m : Mockup) (ph : String)
    (hm : findSingle (fun mm => mm.id == id) db.mockups = some m)
    (hph : m.password_hash = some ph) :
    getMockup hashFn db id (some "") version
      = (ReadResult.passwordRequired, db) := by
  simp only [getMockup, hm, hph]
  simp

theorem getMockup_bad_pw (hashFn : String → String) (db : DB)
    (id p : String) (version : Option VersionReq) (m : Mockup) (ph : String)
    (hm : findSingle (fun mm => mm.id == id) db.mockups = some m)
    (hph : m.password_hash = some ph) (hp : p ≠ "")
    (hne : hashFn p ≠ ph) :
    getMockup hashFn db id (some p) version
      = (ReadResult.invalidPassword, db) := by
  simp only [getMockup, hm, hph]
  simp [hp, hne]

theorem getMockup_ok_pw (hashFn : String → String) (db : DB)
    (id p : String) (version : Option VersionReq) (m : Mockup) (ph : String)
    (hm : findSingle (fun mm => mm.id == id) db.mockups = some m)
    (hph : m.password_hash = some ph) (hp : p ≠ "")
    (heq : hashFn p = ph) :
    getMockup hashFn db id (some p) version
      = (ReadResult.ok (resolveVersionReq db id m version),
         bumpViews db id m) := by
  simp only [getMockup, hm, hph]
  simp [hp, heq]

/-! ### Claim theorems -/

/-- C3: reading an existing mockup whose `passwordHash` is set.  With no
password supplied the handler answers `passwordRequired` and leaves the
database untouched — and the `passwordRequired` constructor carries no
content, matching the `{success:false, passwordProtected:true}` body.  With
a (non-empty, i.e. JS-truthy) password whose hash differs from the stored
digest it answers `invalidPassword`, again content-free and state-free.
With a matching hash the read succeeds and serves the resolved content. -/
theorem read_password_gate (hashFn : String → String) (db : DB)
    (id p : String) (version : Option VersionReq) (m : Mockup) (ph : String)
    (hm : findSingle (fun mm => mm.id == id) db.mockups = some m)
    (hph : m.password_hash = some ph) (hp : p ≠ "") :
    getMockup hashFn db id none version = (ReadResult.passwordRequired, db) ∧
    (hashFn p ≠ ph →
      getMockup hashFn db id (some p) version
        = (ReadResult.invalidPassword, db)) ∧
    (hashFn p = ph →
      getMockup hashFn db id (some p) version
        = (ReadResult.ok (resolveVersionReq db id m version),
           bumpViews db id m)) :=
  ⟨getMockup_none_pw hashFn db id version m ph hm hph,
   fun hne => getMockup_bad_pw hashFn db id p version m ph hm hph hp hne,
   fun heq => getMockup_ok_pw hashFn db id p version m ph hm hph hp heq⟩

/-- C4: the view counter.  Every failing read (`notFound`,
`passwordRequired`, `invalidPassword`) leaves the database unchanged; every
successful read — whichever version was requested — stores `views + 1` on
the mockup row and reports that bumped value. -/
theorem read_viewCount_spec (hashFn : String → String) (db : DB)
    (id : String) (password : Option String) (version : Option VersionReq) :
    ((getMockup hashFn db id password version).1 = ReadResult.notFound ∨
     (getMockup hashFn db id password version).1
        = ReadResult.passwordRequired ∨
     (getMockup hashFn db id password version).1
        = ReadResult.invalidPassword →
      (getMockup hashFn db id password version).2 = db) ∧
    (∀ m r, findSingle (fun mm => mm.id == id) db.mockups = some m →
      (getMockup hashFn db id password version).1 = ReadResult.ok r →
      (getMockup hashFn db id password version).2 = bumpViews db id m ∧
      findSingle (fun mm => mm.id == id)
          (getMockup hashFn db id password version).2.mockups
        = some { m with views := m.views + 1 } ∧
      r.views = m.views + 1) := by
  rcases hfs : findSingle (fun mm => mm.id == id) db.mockups with _ | m0
  · rw [getMockup_notFound hashFn db id password version hfs]
    exact ⟨fun _ => rfl, fun m r hm hr => by rw [hfs] at hm; cases hm⟩
  · have hok :
        getMockup hashFn db id password version
          = (ReadResult.ok (resolveVersionReq db id m0 version),
             bumpViews db id m0) →
        (∀ m r, findSingle (fun mm => mm.id == id) db.mockups = some m →
          (getMockup hashFn db id password version).1 = ReadResult.ok r →
          (getMockup hashFn db id password version).2 = bumpViews db id m ∧
          findSingle (fun mm => mm.id == id)
              (getMockup hashFn db id password version).2.mockups
            = some { m with views := m.views + 1 } ∧
          r.views = m.views + 1) := by
      intro he m r hm hr
      rw [hfs] at hm
      cases hm
      rw [he] at hr ⊢
      have h2 : ReadResult.ok (resolveVersionReq db id m0 version)
          = ReadResult.ok r := hr
      injection h2 with h2
      subst h2
      exact ⟨rfl, bumpViews_findSingle db id m0 hfs,
        resolveVersionReq_views db id m0 version⟩
    have herr : ∀ e : ReadResult,
        getMockup hashFn db id password version = (e, db) →
        ((getMockup hashFn db id password version).1 = ReadResult.notFound ∨
         (getMockup hashFn db id password version).1
            = ReadResult.passwordRequired ∨
         (getMockup hashFn db id password version).1
            = ReadResult.invalidPassword →
          (getMockup hashFn db id password version).2 = db) := by
      intro e he _
      rw [he]
    have hokerr :
        getMockup hashFn db id password version
          = (ReadResult.ok (resolveVersionReq db id m0 version),
             bumpViews db id m0) →
        ((getMockup hashFn db id password version).1 = ReadResult.notFound ∨
         (getMockup hashFn db id password version).1
            = ReadResult.passwordRequired ∨
         (getMockup hashFn db id password version).1
            = ReadResult.invalidPassword →
          (getMockup hashFn db id password version).2 = db) := by
      intro he h
      rw [he] at h
      rcases h with h | h | h <;> cases h
    have herrok : ∀ e : ReadResult, e ≠ ReadResult.ok (liveRead m0) →
        (∀ r, e ≠ ReadResult.ok r) →
        getMockup hashFn db id password version = (e, db) →
        (∀ m r, findSingle (fun mm => mm.id == id) db.mockups = some m →
          (getMockup hashFn db id password version).1 = ReadResult.ok r →
          (getMockup hashFn db id password version).2 = bumpViews db id m ∧
          findSingle (fun mm => mm.id == id)
              (getMockup hashFn db id password version).2.mockups
            = some { m with views := m.views + 1 } ∧
          r.views = m.views + 1) := by
      intro e _ hne he m r _ hr
      rw [he] at hr
      exact absurd hr (hne r)
    rcases hph : m0.password_hash with _ | ph
    · have he := getMockup_no_hash hashFn db id password version m0 hfs hph
      exact ⟨hokerr he, hok he⟩
    · rcases password with _ | p
      · have he := getMockup_none_pw hashFn db id version m0 ph hfs hph
        exact ⟨herr _ he, herrok _ (by simp) (by simp) he⟩
      · by_cases hp : p = ""
        · subst hp
          have he := getMockup_empty_pw hashFn db id version m0 ph hfs hph
          exact ⟨herr _ he, herrok _ (by simp) (by simp) he⟩
        · by_cases hh : hashFn p = ph
          · have he := getMockup_ok_pw hashFn db id p version m0 ph hfs hph hp hh
            exact ⟨hokerr he, hok he⟩
          · have he := getMockup_bad_pw hashFn db id p version m0 ph hfs hph hp hh
            exact ⟨herr _ he, herrok _ (by simp) (by simp) he⟩

/-- C10: a read that names a version which is neither the current version
nor an existing archived snapshot does not fail: the whole request behaves
exactly like a read with no `?version=` at all, and on success it serves the
live content with `viewingVersion = currentVersion`. -/
theorem read_unknown_version_fallback (hashFn : String → String) (db : DB)
    (id : String) (password : Option String) (n : Nat) (m : Mockup)
    (hm : findSingle (fun mm => mm.id == id) db.mockups = some m)
    (hn : n ≠ m.current_version)
    (harch : findSingle
        (fun v => v.mockup_id == id && v.version_number == n) db.versions
        = none) :
    getMockup hashFn db id password (some (VersionReq.num n))
      = getMockup hashFn db id password none ∧
    (∀ r, (getMockup hashFn db id password (some (VersionReq.num n))).1
        = ReadResult.ok r → r = liveRead m) := by
  have hmiss : resolveVersionReq db id m (some (VersionReq.num n))
      = liveRead m :=
    resolveVersionReq_miss db id m n hn harch
  have hnone : resolveVersionReq db id m none = liveRead m := rfl
  rcases hph : m.password_hash with _ | ph
  · have h1 := getMockup_no_hash hashFn db id password
      (some (VersionReq.num n)) m hm hph
    have h2 := getMockup_no_hash hashFn db id password none m hm hph
    refine ⟨by rw [h1, h2, hmiss, hnone], fun r hr => ?_⟩
    rw [h1] at hr
    have h3 : ReadResult.ok (resolveVersionReq db id m
        (some (VersionReq.num n))) = ReadResult.ok r := hr
    injection h3 with h3
    rw [← h3, hmiss]
  · rcases password with _ | p
    · have h1 := getMockup_none_pw hashFn db id
        (some (VersionReq.num n)) m ph hm hph
      have h2 := getMockup_none_pw hashFn db id none m ph hm hph
      refine ⟨by rw [h1, h2], fun r hr => ?_⟩
      rw [h1] at hr
      cases hr
    · by_cases hp : p = ""
      · subst hp
        have h1 := getMockup_empty_pw hashFn db id
          (some (VersionReq.num n)) m ph hm hph
        have h2 := getMockup_empty_pw hashFn db id none m ph hm hph
        refine ⟨by rw [h1, h2], fun r hr => ?_⟩
        rw [h1] at hr
        cases hr
      · by_cases hh : hashFn p = ph
        · have h1 := getMockup_ok_pw hashFn db id p
            (some (VersionReq.num n)) m ph hm hph hp hh
          have h2 := getMockup_ok_pw hashFn db id p none m ph hm hph hp hh
          refine ⟨by rw [h1, h2, hmiss, hnone], fun r hr => ?_⟩
          rw [h1] at hr
          have h3 : ReadResult.ok (resolveVersionReq db id m
              (some (VersionReq.num n))) = ReadResult.ok r := hr
          injection h3 with h3
          rw [← h3, hmiss]
        · have h1 := getMockup_bad_pw hashFn db id p
            (some (VersionReq.num n)) m ph hm hph hp hh
          have h2 := getMockup_bad_pw hashFn db id p none m ph hm hph hp hh
          refine ⟨by rw [h1, h2], fun r hr => ?_⟩
          rw [h1] at hr
          cases hr

/-- C5: deleting an archived version of an existing mockup.  Whenever the
requested number is at least `current_version` the handler answers the 400
rejection and changes nothing; on a strictly smaller number it answers 200,
removes exactly the matching snapshot rows, and the version list no longer
carries that number.  (The handler never produces a 404: an unknown
snapshot below `current_version` also answers 200.) -/
theorem deleteVersion_spec (db : DB) (id : String) (versionNum : Nat)
    (m : Mockup)
    (hm : findSingle (fun mm => mm.id == id) db.mockups = some m) :
    (versionNum ≥ m.current_version →
      deleteVersion db id versionNum = (ApiResult.rejected, db)) ∧
    (versionNum < m.current_version →
      (deleteVersion db id versionNum).1 = ApiResult.ok ∧
      (deleteVersion db id versionNum).2
        = { db with versions := db.versions.filter fun v =>
              !(v.mockup_id == id && v.version_number == versionNum) } ∧
      ∀ e ∈ listVersions (deleteVersion db id versionNum).2 id,
        e.2 ≠ versionNum) := by
  constructor
  · intro hge
    simp only [deleteVersion, hm]
    rw [if_pos hge]
  · intro hlt
    have he : deleteVersion db id versionNum
        = (ApiResult.ok,
           { db with versions := db.versions.filter fun v =>
               !(v.mockup_id == id && v.version_number == versionNum) }) := by
      simp only [deleteVersion, hm]
      rw [if_neg (Nat.not_le.mpr hlt)]
    refine ⟨by rw [he], by rw [he], ?_⟩
    rw [he]
    intro e he2
    simp only [listVersions, List.mem_map] at he2
    obtain ⟨v, hv, rfl⟩ := he2
    rw [List.mem_filter] at hv
    obtain ⟨hv1, hv2⟩ := hv
    rw [List.mem_filter] at hv1
    obtain ⟨_, hnot⟩ := hv1
    simp only [hv2, Bool.not_eq_eq_eq_not, Bool.not_true, Bool.true_and,
      beq_eq_false_iff_ne] at hnot
    exact hnot

/-- C6: `PUT /api/mockups/:id` on an existing mockup replaces the live
content in place.  With the password omitted, the stored row keeps its
digest (and `current_version`, `views`) untouched; with a (truthy) password
supplied the digest is overwritten with the new hash.  The versions and
comments tables are never touched.  (The handler always answers 200; the
`ok | NotFound` result set of the claim is never left.) -/
theorem update_spec (hashFn : String → String) (db : DB) (id data : String)
    (password : Option String) (m : Mockup) (p : String)
    (hm : findSingle (fun mm => mm.id == id) db.mockups = some m)
    (hp : p ≠ "") :
    findSingle (fun mm => mm.id == id)
        (updateMockup hashFn db id data none).mockups
      = some { m with data := data } ∧
    findSingle (fun mm => mm.id == id)
        (updateMockup hashFn db id data (some p)).mockups
      = some { m with data := data, password_hash := some (hashFn p) } ∧
    (updateMockup hashFn db id data password).versions = db.versions ∧
    (updateMockup hashFn db id data password).comments = db.comments := by
  have hid : m.id = id := by simpa using findSingle_pred _ _ _ hm
  refine ⟨?_, ?_, rfl, rfl⟩
  · have hf : ∀ mm : Mockup,
        ((if mm.id == id then { mm with data := data } else mm).id == id)
          = (mm.id == id) :=
      mockup_upd_id_pres id _ fun mm => rfl
    show findSingle (fun mm => mm.id == id)
        (db.mockups.map fun mm =>
          if mm.id == id then { mm with data := data } else mm) = _
    rw [findSingle_map_pres _ _ hf, hm]
    simp [hid]
  · have hf : ∀ mm : Mockup,
        ((if mm.id == id then
            (if p == "" then { mm with data := data }
             else { mm with data := data, password_hash := some (hashFn p) })
          else mm).id == id) = (mm.id == id) := by
      intro mm
      cases h : (mm.id == id) <;> by_cases hp2 : (p == "") <;> simp [h, hp2]
    show findSingle (fun mm => mm.id == id)
        (db.mockups.map fun mm =>
          if mm.id == id then
            (if p == "" then { mm with data := data }
             else { mm with data := data, password_hash := some (hashFn p) })
          else mm) = _
    rw [findSingle_map_pres _ _ hf, hm]
    simp [hid, hp]

/-- C7 (amended): comment editing is gated by exact equality with the stored
author token, but the handler never answers 404.  When the single matching
comment row exists, a token mismatch yields `forbidden` with no state
change, and a matching token updates exactly the `comment` body column.
When no comment has the id the update matches no rows and the handler
answers `ok` with the ledger unchanged. -/
theorem editComment_spec (db : DB) (commentId body tok : String) :
    (∀ c, findSingle (fun cc => cc.id == commentId) db.comments = some c →
      c.author_token ≠ tok →
      editComment db commentId body tok = (ApiResult.forbidden, db)) ∧
    (∀ c, findSingle (fun cc => cc.id == commentId) db.comments = some c →
      c.author_token = tok →
      (editComment db commentId body tok).1 = ApiResult.ok ∧
      (editComment db commentId body tok).2.comments
        = db.comments.map fun cc =>
            if cc.id == commentId then { cc with comment := body } else cc) ∧
    ((∀ cc ∈ db.comments, cc.id ≠ commentId) →
      editComment db commentId body tok = (ApiResult.ok, db)) := by
  refine ⟨fun c hc hne => ?_, fun c hc heq => ?_, fun hnone => ?_⟩
  · simp only [editComment, hc]
    simp [hne]
  · simp only [editComment, hc]
    simp [heq]
  · have hfs : findSingle (fun cc => cc.id == commentId) db.comments
        = none :=
      findSingle_none_of_no_match _ _ fun a ha => by
        simpa using hnone a ha
    have hmap :
        (db.comments.map fun cc =>
          if cc.id == commentId then { cc with comment := body } else cc)
          = db.comments :=
      map_if_eq_self _ _ _ fun a ha => by simpa using hnone a ha
    simp only [editComment, hfs, hmap]

/-- C9 (amended): comment deletion has two authorization paths, and the
handler never answers 404.  With no (or an empty, JS-falsy) `?authorToken=`
— the externally-authorized designer path — the deletion always proceeds.
With a truthy token and an existing comment row, a mismatch yields
`forbidden` with no state change and a match deletes the matching rows.
With a truthy token and an unknown comment id the delete matches no rows
and the handler answers `ok` with the ledger unchanged. -/
theorem deleteComment_spec (db : DB) (commentId t : String) (ht : t ≠ "") :
    ((deleteComment db commentId none).1 = ApiResult.ok ∧
     (deleteComment db commentId none).2.comments
       = db.comments.filter fun c => !(c.id == commentId)) ∧
    (∀ c, findSingle (fun cc => cc.id == commentId) db.comments = some c →
      c.author_token ≠ t →
      deleteComment db commentId (some t) = (ApiResult.forbidden, db)) ∧
    (∀ c, findSingle (fun cc => cc.id == commentId) db.comments = some c →
      c.author_token = t →
      (deleteComment db commentId (some t)).1 = ApiResult.ok ∧
      (deleteComment db commentId (some t)).2.comments
        = db.comments.filter fun c => !(c.id == commentId)) ∧
    ((∀ cc ∈ db.comments, cc.id ≠ commentId) →
      deleteComment db commentId (some t) = (ApiResult.ok, db)) := by
  refine ⟨⟨rfl, rfl⟩, fun c hc hne => ?_, fun c hc heq => ?_, fun hnone => ?_⟩
  · simp only [deleteComment, hc]
    simp [ht, hne]
  · simp only [deleteComment, hc]
    simp [ht, heq]
  · have hfs : findSingle (fun cc => cc.id == commentId) db.comments
        = none :=
      findSingle_none_of_no_match _ _ fun a ha => by
        simpa using hnone a ha
    have hmap :
        (db.comments.filter fun c => !(c.id == commentId)) = db.comments :=
      filter_not_eq_self _ _ fun a ha => by simpa using hnone a ha
    simp only [deleteComment, hfs, hmap]
    simp [ht]

/-- C8: a comment's `versionNumber` is fixed at creation and never
rewritten.  Adding a comment to an existing mockup appends exactly one row
bound to the mockup's `current_version` at call time with `resolved` false;
an edit either changes nothing (403) or rewrites only the `comment` body of
the matching rows; a resolve rewrites only the `resolved` flag; a version
cut leaves the `comments` table entirely unchanged. -/
theorem comment_version_binding (db : DB) (id commentId : String)
    (x y width height : Int) (imageIndex : Nat) (body author tok : String)
    (m : Mockup)
    (hm : findSingle (fun mm => mm.id == id) db.mockups = some m)
    (hv : m.current_version ≠ 0)
    (db2 : DB) (cid2 b2 t2 : String) (r2 : Bool) (mid vid : String) :
    (addComment db id commentId x y width height imageIndex body author
        tok).2.comments
      = db.comments ++
        [{ id := commentId, mockup_id := id,
           version_number := m.current_version, x := x, y := y,
           width := width, height := height, image_index := imageIndex,
           comment := body, author := author, author_token := tok,
           resolved := false }] ∧
    ((editComment db2 cid2 b2 t2).2.comments = db2.comments ∨
     (editComment db2 cid2 b2 t2).2.comments
       = db2.comments.map fun c =>
           if c.id == cid2 then { c with comment := b2 } else c) ∧
    (resolveComment db2 cid2 r2).2.comments
      = (db2.comments.map fun c =>
          if c.id == cid2 then { c with resolved := r2 } else c) ∧
    (cutVersion db2 mid vid).2.comments = db2.comments := by
  refine ⟨?_, ?_, rfl, ?_⟩
  · simp only [addComment, hm]
    simp [hv]
  · rcases hfs : findSingle (fun cc => cc.id == cid2) db2.comments with
      _ | c0
    · simp only [editComment, hfs]
      exact Or.inr trivial
    · by_cases hne : c0.author_token = t2
      · simp only [editComment, hfs]
        right
        simp [hne]
      · simp only [editComment, hfs]
        left
        simp [hne]
  · rcases hfs : findSingle (fun mm => mm.id == mid) db2.mockups with
      _ | m0 <;> simp only [cutVersion, hfs]

theorem cutVersion_eq (db : DB) (id vid : String) (m : Mockup)
    (hm : findSingle (fun mm => mm.id == id) db.mockups = some m)
    (hv : m.current_version ≠ 0) :
    cutVersion db id vid =
      (CutResult.ok m.current_version (m.current_version + 1),
       { db with
          versions := db.versions ++
            [{ id := vid, mockup_id := id,
               version_number := m.current_version, data := m.data,
               comments_snapshot := db.comments.filter fun c =>
                 c.mockup_id == id && c.version_number == m.current_version }],
          mockups := db.mockups.map fun mm =>
            if mm.id == id then
              { mm with current_version := m.current_version + 1 }
            else mm }) := by
  simp only [cutVersion, hm]
  simp [hv]

theorem cutVersion_findSingle (db : DB) (id vid : String) (m : Mockup)
    (hm : findSingle (fun mm => mm.id == id) db.mockups = some m)
    (hv : m.current_version ≠ 0) :
    findSingle (fun mm => mm.id == id) (cutVersion db id vid).2.mockups
      = some { m with current_version := m.current_version + 1 } := by
  rw [cutVersion_eq db id vid m hm hv]
  have hf : ∀ mm : Mockup,
      ((if mm.id == id then
          { mm with current_version := m.current_version + 1 }
        else mm).id == id) = (mm.id == id) :=
    mockup_upd_id_pres id _ fun mm => rfl
  show findSingle (fun mm => mm.id == id)
      (db.mockups.map fun mm =>
        if mm.id == id then
          { mm with current_version := m.current_version + 1 }
        else mm) = _
  rw [findSingle_map_pres _ _ hf, hm]
  have hid : m.id = id := by simpa using findSingle_pred _ _ _ hm
  simp [hid]

theorem cutN_version (id : String) :
    ∀ (vids : List String) (db : DB) (m : Mockup),
      findSingle (fun mm => mm.id == id) db.mockups = some m →
      m.current_version ≠ 0 →
      Option.map Mockup.current_version
          (findSingle (fun mm => mm.id == id) (cutN db id vids).mockups)
        = some (m.current_version + vids.length)
  | [], db, m, hm, _ => by simp [cutN, hm]
  | vid :: rest, db, m, hm, hv => by
    have h1 := cutVersion_findSingle db id vid m hm hv
    have h2 := cutN_version id rest (cutVersion db id vid).2
      { m with current_version := m.current_version + 1 } h1
      (Nat.succ_ne_zero _)
    show Option.map Mockup.current_version
        (findSingle (fun mm => mm.id == id)
          (cutN (cutVersion db id vid).2 id rest).mockups) = _
    rw [h2]
    simp only [List.length_cons]
    congr 1
    omega

/-- C1: a successful CutVersion on a mockup in state Editing(v) answers
`ok v (v+1)`, appends exactly one snapshot row carrying `versionNumber = v`,
the current content and the live comments bound to `v`, and rewrites the
mockup row to `current_version = v + 1` with every other field — in
particular the live content — unchanged; the live comment ledger is
untouched.  Starting from a freshly created mockup (which has
`current_version = 1`), N successful cuts leave `current_version = 1 + N`. -/
theorem cutVersion_claim (db : DB) (id vid : String) (m : Mockup)
    (hm : findSingle (fun mm => mm.id == id) db.mockups = some m)
    (hv : m.current_version ≠ 0)
    (hashFn : String → String) (db0 : DB) (nid ndata : String)
    (npw : Option String) (vids : List String)
    (hfresh : ∀ mm ∈ db0.mockups, mm.id ≠ nid) :
    (cutVersion db id vid).1
      = CutResult.ok m.current_version (m.current_version + 1) ∧
    (cutVersion db id vid).2.versions
      = db.versions ++
        [{ id := vid, mockup_id := id,
           version_number := m.current_version, data := m.data,
           comments_snapshot := db.comments.filter fun c =>
             c.mockup_id == id && c.version_number == m.current_version }] ∧
    findSingle (fun mm => mm.id == id) (cutVersion db id vid).2.mockups
      = some { m with current_version := m.current_version + 1 } ∧
    (cutVersion db id vid).2.comments = db.comments ∧
    Option.map Mockup.current_version
        (findSingle (fun mm => mm.id == nid)
          (cutN (createMockup hashFn db0 nid ndata npw) nid vids).mockups)
      = some (1 + vids.length) := by
  have he := cutVersion_eq db id vid m hm hv
  refine ⟨by rw [he], by rw [he], cutVersion_findSingle db id vid m hm hv,
    by rw [he], ?_⟩
  have hstart : findSingle (fun mm => mm.id == nid)
      (createMockup hashFn db0 nid ndata npw).mockups
      = some { id := nid, data := ndata,
               password_hash :=
                 (match npw with
                  | some p => if p == "" then none else some (hashFn p)
                  | none => none),
               current_version := 1, views := 0 } :=
    findSingle_append_fresh _ db0.mockups _
      (fun a ha => by simpa using hfresh a ha) (by simp)
  have h2 := cutN_version nid vids (createMockup hashFn db0 nid ndata npw)
    _ hstart Nat.one_ne_zero
  rw [h2]

/-- C2: after a cut archives version `v`, listing comments for `v` serves
exactly the comment snapshot captured at cut time (the live rows bound to
`v` at that moment), flagged as archived; the archived listing depends only
on the `versions` table, and none of the later live-ledger operations —
add, edit, resolve, single delete, bulk delete — ever changes the
`versions` table, so the listed result stays the frozen snapshot. -/
theorem archived_comments_frozen (db : DB) (id vid : String) (m : Mockup)
    (hm : findSingle (fun mm => mm.id == id) db.mockups = some m)
    (hv : m.current_version ≠ 0)
    (hfresh : ∀ vr ∈ db.versions,
      (vr.mockup_id == id && vr.version_number == m.current_version) = false)
    (db2 : DB) (mid2 cid2 b2 t2 : String) (r2 : Bool)
    (x y width height : Int) (imageIndex : Nat) (body author tok : String)
    (tokOpt : Option String) :
    getComments (cutVersion db id vid).2 id (some m.current_version)
      = { comments := db.comments.filter fun c =>
            c.mockup_id == id && c.version_number == m.current_version,
          version := m.current_version, isArchived := true } ∧
    (db2.versions = (cutVersion db id vid).2.versions →
      getComments db2 id (some m.current_version)
        = getComments (cutVersion db id vid).2 id (some m.current_version)) ∧
    (addComment db2 mid2 cid2 x y width height imageIndex body author
        tok).2.versions = db2.versions ∧
    (editComment db2 cid2 b2 t2).2.versions = db2.versions ∧
    (resolveComment db2 cid2 r2).2.versions = db2.versions ∧
    (deleteComment db2 cid2 tokOpt).2.versions = db2.versions ∧
    (deleteAllComments db2 mid2).2.versions = db2.versions := by
  have hid : m.id = id := by simpa using findSingle_pred _ _ _ hm
  have he := cutVersion_eq db id vid m hm hv
  have hsnap : findSingle
      (fun v => v.mockup_id == id && v.version_number == m.current_version)
      (cutVersion db id vid).2.versions
      = some { id := vid, mockup_id := id,
               version_number := m.current_version, data := m.data,
               comments_snapshot := db.comments.filter fun c =>
                 c.mockup_id == id && c.version_number == m.current_version } := by
    rw [he]
    exact findSingle_append_fresh _ db.versions _ hfresh (by simp)
  have hlist : getComments (cutVersion db id vid).2 id
      (some m.current_version)
      = { comments := db.comments.filter fun c =>
            c.mockup_id == id && c.version_number == m.current_version,
          version := m.current_version, isArchived := true } := by
    simp only [getComments, hsnap]
  refine ⟨hlist, fun hvs => ?_, rfl, ?_, rfl, ?_, rfl⟩
  · have hsnap2 : findSingle
        (fun v => v.mockup_id == id && v.version_number == m.current_version)
        db2.versions
        = some { id := vid, mockup_id := id,
                 version_number := m.current_version, data := m.data,
                 comments_snapshot := db.comments.filter fun c =>
                   c.mockup_id == id &&
                     c.version_number == m.current_version } := by
      rw [hvs]
      exact hsnap
    rw [hlist]
    simp only [getComments, hsnap2]
  · rcases hfs : findSingle (fun cc => cc.id == cid2) db2.comments with
      _ | c0
    · simp only [editComment, hfs]
    · by_cases hne : c0.author_token = t2 <;>
        simp only [editComment, hfs] <;> simp [hne]
  · rcases tokOpt with _ | t
    · rfl
    · by_cases ht : t = ""
      · subst ht
        rfl
      · rcases hfs : findSingle (fun cc => cc.id == cid2) db2.comments with
          _ | c0
        · simp only [deleteComment, hfs]
          simp [ht]
        · by_cases hne : c0.author_token = t <;>
            simp only [deleteComment, hfs] <;> simp [ht, hne]

/-! ### Concrete instances -/

/-- A concrete stand-in for the opaque hash function, injective on the
inputs used below. -/
def tagHash (s : String) : String := "#" ++ s

/-- A public mockup at version 1. -/
def mA : Mockup :=
  { id := "a1", data := "D", password_hash := none,
    current_version := 1, views := 0 }

/-- A password-protected mockup at version 2 with 5 views. -/
def mB : Mockup :=
  { id := "b1", data := "E", password_hash := some (tagHash "secret"),
    current_version := 2, views := 5 }

/-- A live comment on `mA`, bound to version 1, owned by token `tok1`. -/
def cA : Comment :=
  { id := "c1", mockup_id := "a1", version_number := 1, x := 1, y := 2,
    width := 3, height := 4, image_index := 0, comment := "first",
    author := "al", author_token := "tok1", resolved := false }

/-- An archived snapshot of `mB` at version 1. -/
def vB : Version :=
  { id := "v1", mockup_id := "b1", version_number := 1, data := "E0",
    comments_snapshot := [] }

def dbA : DB := { mockups := [mA], versions := [], comments := [cA] }

def dbB : DB := { mockups := [mB], versions := [vB], comments := [] }

/-! ### Counterexamples -/

/-- C7 counterexample: with no comment whose id is `"zz"` in the store, the
claim demands NotFound, but the edit handler answers 200 ok (the
authorization lookup finds nothing, so the check is skipped and the update
matches no rows). -/
theorem editComment_unknown_not_notFound :
    (editComment dbA "zz" "newBody" "tok1").1 = ApiResult.ok ∧
    ¬ (editComment dbA "zz" "newBody" "tok1").1 = ApiResult.notFound := by
  constructor <;> decide

/-- C9 counterexample: deleting an unknown comment id with a token supplied
answers 200 ok, not the NotFound the claim demands. -/
theorem deleteComment_unknown_not_notFound :
    (deleteComment dbA "zz" (some "tok1")).1 = ApiResult.ok ∧
    ¬ (deleteComment dbA "zz" (some "tok1")).1 = ApiResult.notFound := by
  constructor <;> decide

/-! ### Witnesses -/

theorem cutVersion_claim_witness :
    findSingle (fun mm => mm.id == "a1") dbA.mockups = some mA ∧
    mA.current_version ≠ 0 ∧
    (∀ mm ∈ dbA.mockups, mm.id ≠ "n1") ∧
    (cutVersion dbA "a1" "w1").1 = CutResult.ok 1 2 ∧
    Option.map Mockup.current_version
        (findSingle (fun mm => mm.id == "n1")
          (cutN (createMockup tagHash dbA "n1" "N" none) "n1"
            ["q1", "q2"]).mockups)
      = some 3 :=
  ⟨by decide, by decide, by decide,
   (cutVersion_claim dbA "a1" "w1" mA (by decide) (by decide) tagHash dbA
     "n1" "N" none ["q1", "q2"] (by decide)).1,
   (cutVersion_claim dbA "a1" "w1" mA (by decide) (by decide) tagHash dbA
     "n1" "N" none ["q1", "q2"] (by decide)).2.2.2.2⟩

theorem archived_comments_frozen_witness :
    findSingle (fun mm => mm.id == "a1") dbA.mockups = some mA ∧
    mA.current_version ≠ 0 ∧
    (∀ vr ∈ dbA.versions,
      (vr.mockup_id == "a1" && vr.version_number == mA.current_version)
        = false) ∧
    getComments (cutVersion dbA "a1" "w1").2 "a1" (some 1)
      = { comments := [cA], version := 1, isArchived := true } ∧
    (editComment dbA "c1" "nb" "tok1").2.versions = dbA.versions :=
  ⟨by decide, by decide, by decide,
   (archived_comments_frozen dbA "a1" "w1" mA (by decide) (by decide)
     (by decide) dbA "a1" "c1" "nb" "tok1" true 0 0 0 0 0 "b" "au" "t"
     none).1,
   (archived_comments_frozen dbA "a1" "w1" mA (by decide) (by decide)
     (by decide) dbA "a1" "c1" "nb" "tok1" true 0 0 0 0 0 "b" "au" "t"
     none).2.2.2.1⟩

theorem read_password_gate_witness :
    findSingle (fun mm => mm.id == "b1") dbB.mockups = some mB ∧
    mB.password_hash = some (tagHash "secret") ∧
    ("wrong" : String) ≠ "" ∧
    getMockup tagHash dbB "b1" none none
      = (ReadResult.passwordRequired, dbB) ∧
    getMockup tagHash dbB "b1" (some "wrong") none
      = (ReadResult.invalidPassword, dbB) ∧
    getMockup tagHash dbB "b1" (some "secret") none
      = (ReadResult.ok (resolveVersionReq dbB "b1" mB none),
         bumpViews dbB "b1" mB) :=
  ⟨by decide, by decide, by decide,
   (read_password_gate tagHash dbB "b1" "wrong" none mB (tagHash "secret")
     (by decide) (by decide) (by decide)).1,
   (read_password_gate tagHash dbB "b1" "wrong" none mB (tagHash "secret")
     (by decide) (by decide) (by decide)).2.1 (by decide),
   (read_password_gate tagHash dbB "b1" "secret" none mB (tagHash "secret")
     (by decide) (by decide) (by decide)).2.2 (by decide)⟩

theorem read_viewCount_witness :
    findSingle (fun mm => mm.id == "a1") dbA.mockups = some mA ∧
    (getMockup tagHash dbA "a1" none none).1 = ReadResult.ok (liveRead mA) ∧
    ((getMockup tagHash dbA "a1" none none).2 = bumpViews dbA "a1" mA ∧
     findSingle (fun mm => mm.id == "a1")
        (getMockup tagHash dbA "a1" none none).2.mockups
       = some { mA with views := mA.views + 1 } ∧
     (liveRead mA).views = mA.views + 1) :=
  ⟨by decide, by decide,
   (read_viewCount_spec tagHash dbA "a1" none none).2 mA (liveRead mA)
     (by decide) (by decide)⟩

theorem deleteVersion_witness :
    findSingle (fun mm => mm.id == "b1") dbB.mockups = some mB ∧
    deleteVersion dbB "b1" 2 = (ApiResult.rejected, dbB) ∧
    (deleteVersion dbB "b1" 1).1 = ApiResult.ok ∧
    (deleteVersion dbB "b1" 1).2
      = { dbB with versions := dbB.versions.filter fun v =>
            !(v.mockup_id == "b1" && v.version_number == 1) } :=
  ⟨by decide,
   (deleteVersion_spec dbB "b1" 2 mB (by decide)).1 (by decide),
   ((deleteVersion_spec dbB "b1" 1 mB (by decide)).2 (by decide)).1,
   ((deleteVersion_spec dbB "b1" 1 mB (by decide)).2 (by decide)).2.1⟩

theorem update_witness :
    findSingle (fun mm => mm.id == "a1") dbA.mockups = some mA ∧
    ("pw" : String) ≠ "" ∧
    (findSingle (fun mm => mm.id == "a1")
        (updateMockup tagHash dbA "a1" "D2" none).mockups
      = some { mA with data := "D2" } ∧
     findSingle (fun mm => mm.id == "a1")
        (updateMockup tagHash dbA "a1" "D2" (some "pw")).mockups
      = some { mA with
               data := "D2", password_hash := some (tagHash "pw") } ∧
     (updateMockup tagHash dbA "a1" "D2" none).versions = dbA.versions ∧
     (updateMockup tagHash dbA "a1" "D2" none).comments = dbA.comments) :=
  ⟨by decide, by decide,
   update_spec tagHash dbA "a1" "D2" none mA "pw" (by decide) (by decide)⟩

theorem editComment_witness :
    findSingle (fun cc => cc.id == "c1") dbA.comments = some cA ∧
    cA.author_token ≠ "tok2" ∧
    editComment dbA "c1" "nb" "tok2" = (ApiResult.forbidden, dbA) ∧
    ((editComment dbA "c1" "nb" "tok1").1 = ApiResult.ok ∧
     (editComment dbA "c1" "nb" "tok1").2.comments
       = dbA.comments.map fun cc =>
           if cc.id == "c1" then { cc with comment := "nb" } else cc) ∧
    editComment dbA "zz" "nb" "tok1" = (ApiResult.ok, dbA) :=
  ⟨by decide, by decide,
   (editComment_spec dbA "c1" "nb" "tok2").1 cA (by decide) (by decide),
   (editComment_spec dbA "c1" "nb" "tok1").2.1 cA (by decide) (by decide),
   (editComment_spec dbA "zz" "nb" "tok1").2.2 (by decide)⟩

theorem comment_version_binding_witness :
    findSingle (fun mm => mm.id == "a1") dbA.mockups = some mA ∧
    mA.current_version ≠ 0 ∧
    ((addComment dbA "a1" "c2" 1 1 2 2 0 "b2" "bo" "tok2").2.comments
       = dbA.comments ++
         [{ id := "c2", mockup_id := "a1", version_number := 1, x := 1,
            y := 1, width := 2, height := 2, image_index := 0,
            comment := "b2", author := "bo", author_token := "tok2",
            resolved := false }] ∧
     ((editComment dbA "c1" "nb" "tok1").2.comments = dbA.comments ∨
      (editComment dbA "c1" "nb" "tok1").2.comments
        = dbA.comments.map fun c =>
            if c.id == "c1" then { c with comment := "nb" } else c) ∧
     (resolveComment dbA "c1" true).2.comments
       = (dbA.comments.map fun c =>
            if c.id == "c1" then { c with resolved := true } else c) ∧
     (cutVersion dbA "a1" "w1").2.comments = dbA.comments) :=
  ⟨by decide, by decide,
   comment_version_binding dbA "a1" "c2" 1 1 2 2 0 "b2" "bo" "tok2" mA
     (by decide) (by decide) dbA "c1" "nb" "tok1" true "a1" "w1"⟩

theorem deleteComment_witness :
    ("tok2" : String) ≠ "" ∧
    findSingle (fun cc => cc.id == "c1") dbA.comments = some cA ∧
    cA.author_token ≠ "tok2" ∧
    ((deleteComment dbA "c1" none).1 = ApiResult.ok ∧
     (deleteComment dbA "c1" none).2.comments
       = dbA.comments.filter fun c => !(c.id == "c1")) ∧
    deleteComment dbA "c1" (some "tok2") = (ApiResult.forbidden, dbA) ∧
    ((deleteComment dbA "c1" (some "tok1")).1 = ApiResult.ok ∧
     (deleteComment dbA "c1" (some "tok1")).2.comments
       = dbA.comments.filter fun c => !(c.id == "c1")) ∧
    deleteComment dbA "zz" (some "tok2") = (ApiResult.ok, dbA) :=
  ⟨by decide, by decide, by decide,
   (deleteComment_spec dbA "c1" "tok2" (by decide)).1,
   (deleteComment_spec dbA "c1" "tok2" (by decide)).2.1 cA (by decide)
     (by decide),
   (deleteComment_spec dbA "c1" "tok1" (by decide)).2.2.1 cA (by decide)
     (by decide),
   (deleteComment_spec dbA "zz" "tok2" (by decide)).2.2.2 (by decide)⟩

theorem read_unknown_version_witness :
    findSingle (fun mm => mm.id == "a1") dbA.mockups = some mA ∧
    (7 : Nat) ≠ mA.current_version ∧
    findSingle (fun v => v.mockup_id == "a1" && v.version_number == 7)
      dbA.versions = none ∧
    (getMockup tagHash dbA "a1" none (some (VersionReq.num 7))).1
      = ReadResult.ok (liveRead mA) ∧
    getMockup tagHash dbA "a1" none (some (VersionReq.num 7))
      = getMockup tagHash dbA "a1" none none ∧
    liveRead mA = liveRead mA :=
  ⟨by decide, by decide, by decide, by decide,
   (read_unknown_version_fallback tagHash dbA "a1" none 7 mA (by decide)
     (by decide) (by decide)).1,
   (read_unknown_version_fallback tagHash dbA "a1" none 7 mA (by decide)
     (by decide) (by decide)).2 (liveRead mA) (by decide)⟩

end PDP
